import Mathlib

/-!
Shallow embedding of the agent execution loop and tool-registry machinery of
the `cli-assistant` repository.

Primary sources:
* `src/cli_assistant/ai/agent.py` — the packaged `Environment` / `Agent`
  (classes `Environment`, `Agent`; the canonical agent loop).
* `src/ai/agent.py` — a standalone prototype of the same classes, kept in the
  repository; it differs from the packaged agent in that budget exhaustion
  does not attach an `interrupted` marker, and it additionally defines
  `Environment.read_user_prompt` and `InteractiveEnvironment`.
* `src/ai/llm.py` — `LLMCompletionResponse` (a dataclass declaring only
  `assistant_message`) and the `format_*_message` helpers of `LLMClient`.
* `src/cli_assistant/ai/assistants/chat.py` — `ChatEnvironment.handle_agent_response`.
* `src/cli_assistant/ai/assistants/readmify.py` — the `readmify` driver that
  reads `response.interrupted` after `Agent.run`.

Conventions of the embedding:
* Python dict-shaped messages become the `Message` structure; a key absent
  from the dict is `none`.
* Python exceptions become `Except`/`Option` error values; an exception that
  a piece of code does not catch is propagated as an error value.
* The external collaborators (the LLM gateway `llm.completion` and the
  standard-library `json.loads`) are parameters of the loop, gathered in
  `World`; they are not code of this repository.
* Dynamic attribute assignment on a Python object (`response.interrupted = True`)
  is modelled by an explicit attribute list `attrs` on `LLMCompletionResponse`,
  empty at construction because the dataclass declares no such field; reading
  a missing attribute is an `AttributeError`.
-/

/-- A single parameter of a capability's signature, as seen by
`inspect.signature` / `get_type_hints` in `Environment.tool`:
its name, whether it has a default value
(`param.default == inspect.Parameter.empty` means no default),
and its declared type hint, if any. -/
structure Param where
  name : String
  hasDefault : Bool
  hint : Option String
deriving Repr, DecidableEq

/-- The JSON-schema object built by `Environment.tool` for a capability's
arguments: `{"type": "object", "properties": {...}, "required": [...]}`.
Properties map a parameter name to its JSON-schema record `{"type": t}`,
here represented by the type string `t`. -/
structure ArgsSchema where
  type : String
  properties : List (String × String)
  required : List String
deriving Repr, DecidableEq

/-- The `param_types` dictionary of `Environment.tool`, mapping a Python type
hint to a JSON-schema type string; `param_types.get(param_type, "string")`
falls back to "string" for unrecognized types, and
`type_hints.get(param_name, str)` makes an absent hint mean `str`. -/
def paramTypes : Option String → String
  | some "str" => "string"
  | some "int" => "integer"
  | some "float" => "number"
  | some "bool" => "boolean"
  | some "list" => "array"
  | some "dict" => "object"
  | some _ => "string"
  | none => "string"

/-- One step of the parameter loop of `Environment.tool`: skip `self`,
record the property, and append to `required` when there is no default. -/
def examineParam (schema : ArgsSchema) (p : Param) : ArgsSchema :=
  if p.name = "self" then schema
  else
    { schema with
      properties := schema.properties ++ [(p.name, paramTypes p.hint)]
      required := if p.hasDefault then schema.required else schema.required ++ [p.name] }

/-- The argument-schema construction of `Environment.tool`
(`src/cli_assistant/ai/agent.py`, the `for param_name, param in
signature.parameters.items()` loop): starts from
`{"type": "object", "properties": {}, "required": []}` and examines each
parameter in declaration order. -/
def buildArgsSchema (params : List Param) : ArgsSchema :=
  params.foldl examineParam { type := "object", properties := [], required := [] }

/-- The argument dictionary obtained from `json.loads` on a tool call's
`arguments` payload, to be expanded as keyword arguments. -/
abbrev ArgsDict := List (String × String)

/-- A capability passed to the `Environment.tool` decorator: the function's
`__name__`, its `__doc__` (absent when the method has no docstring), its
signature parameters (including the explicit `self` entry), and its
implementation. The implementation may raise, modelled by `Except`:
`Except.error m` is a Python exception whose text is `m`. -/
structure Capability where
  name : String
  doc : Option String
  params : List Param
  impl : ArgsDict → Except String String

/-- The `__tool_info__` record attached to a decorated capability by
`Environment.tool`. -/
structure ToolInfo where
  impl : ArgsDict → Except String String
  tool_name : String
  description : String
  parameters : ArgsSchema

/-- The body of the `Environment.tool` decorator: builds the argument schema,
derives the description from the docstring
(`func.__doc__.strip() if func.__doc__ else ""` — a missing or empty
docstring yields the empty string, registration does not fail), and attaches
`__tool_info__`. -/
def Environment.tool (func : Capability) : ToolInfo :=
  { impl := func.impl
    tool_name := func.name
    description := match func.doc with
      | some d => if d.isEmpty then "" else d.trim
      | none => ""
    parameters := buildArgsSchema func.params }

/-- One member of an object as enumerated by `dir(self)` in
`Environment._collect_tools`: its attribute name, paired with its
`__tool_info__` when the attribute carries the tool marking
(`hasattr(attr, "__tool_info__")`), else `none`. -/
abbrev Member := String × Option ToolInfo

/-- The check `attr_name.startswith("_")` of `Environment._collect_tools`,
on the string's character list. -/
def pyStartsWithUnderscore (s : String) : Bool :=
  s.data.head? == some (Char.ofNat 95)

/-- One step of the member walk of `Environment._collect_tools`: skip any
attribute whose name starts with the private marker, register a tool-marked
member in the `tools` dictionary keyed by the attribute name. -/
def collectStep (acc : List (String × ToolInfo)) (m : Member) :
    List (String × ToolInfo) :=
  if pyStartsWithUnderscore m.1 then acc
  else match m.2 with
    | some info => acc ++ [(m.1, info)]
    | none => acc

/-- The body of `Environment._collect_tools`: walk the members enumerated by
`dir(self)` in order, applying `collectStep` to each. -/
def collectTools (members : List Member) : List (String × ToolInfo) :=
  members.foldl collectStep []

/-- The `function` member of a tool call in the wire shape consumed by the
agent: `{name: string, arguments: string (JSON-encoded object)}`. -/
structure ToolCallFunction where
  name : String
  arguments : String
deriving Repr, DecidableEq

/-- A model-issued tool call: `{id, function}`. -/
structure ToolCall where
  id : String
  function : ToolCallFunction
deriving Repr, DecidableEq

/-- A transcript entry, the dict shape produced by the `LLMClient.format_*`
helpers of `src/ai/llm.py` and by the gateway for assistant turns. A dict key
that is absent is `none` (respectively the empty `tool_calls` value). -/
structure Message where
  role : String
  content : Option String
  tool_call_id : Option String
  tool_calls : Option (List ToolCall)
deriving Repr, DecidableEq

/-- `LLMClient.format_system_message`: `{"role": "system", "content": content}`. -/
def formatSystemMessage (content : String) : Message :=
  { role := "system", content := some content, tool_call_id := none, tool_calls := none }

/-- `LLMClient.format_user_message`: `{"role": "user", "content": content}`. -/
def formatUserMessage (content : String) : Message :=
  { role := "user", content := some content, tool_call_id := none, tool_calls := none }

/-- `LLMClient.format_tool_message`:
`{"role": "tool", "content": content, "tool_call_id": tool_call_id}`. -/
def formatToolMessage (content : String) (tool_call_id : String) : Message :=
  { role := "tool", content := some content, tool_call_id := some tool_call_id,
    tool_calls := none }

/-- The `LLMCompletionResponse` dataclass of `src/ai/llm.py`. It declares the
single field `assistant_message`; `content` and `tool_calls` are read-only
properties over it. `attrs` models the Python instance dictionary for
attributes assigned dynamically after construction (such as
`response.interrupted = True` in `Agent.run`); the dataclass itself declares
no such field, so a freshly constructed response has `attrs = []`. -/
structure LLMCompletionResponse where
  assistant_message : Message
  attrs : List (String × Bool)
deriving Repr, DecidableEq

/-- Constructing `LLMCompletionResponse(assistant_message=...)`, as
`LLMClient.completion` does: only the declared field is set. -/
def LLMCompletionResponse.make (m : Message) : LLMCompletionResponse :=
  { assistant_message := m, attrs := [] }

/-- The `content` property of `LLMCompletionResponse`. -/
def LLMCompletionResponse.content (r : LLMCompletionResponse) : Option String :=
  r.assistant_message.content

/-- The `tool_calls` property of `LLMCompletionResponse`. -/
def LLMCompletionResponse.tool_calls (r : LLMCompletionResponse) : Option (List ToolCall) :=
  r.assistant_message.tool_calls

/-- Reading an attribute of a response object, as in `response.interrupted`:
a dynamically assigned attribute is found in the instance dictionary; reading
a name that was never assigned raises `AttributeError`. -/
def pyGetAttr (r : LLMCompletionResponse) (name : String) : Except String Bool :=
  match r.attrs.lookup name with
  | some v => Except.ok v
  | none => Except.error ("AttributeError: " ++ name)

/-- Assigning an attribute on a response object, as in
`response.interrupted = True`. -/
def pySetAttr (r : LLMCompletionResponse) (name : String) (v : Bool) :
    LLMCompletionResponse :=
  { r with attrs := (name, v) :: r.attrs }

/-- The state of an `Environment` after `__init__`: the `tools` dictionary
built by `_collect_tools`, and the (possibly overridden) continuation hook
`handle_agent_response`. The base class hook returns `None`; subclasses such
as `ChatEnvironment` override it. -/
structure Environment where
  tools : List (String × ToolInfo)
  handle_agent_response : LLMCompletionResponse → Option String

/-- Constructing an `Environment`: `__init__` sets `self.tools = {}` and runs
`_collect_tools` over the instance members. -/
def Environment.make (members : List Member)
    (hook : LLMCompletionResponse → Option String) : Environment :=
  { tools := collectTools members, handle_agent_response := hook }

/-- The element shape produced by `Environment.get_tools` for one stored
tool: `{"type": ..., "function": {"name": ..., "description": ...,
"parameters": ...}}`. -/
structure ToolSchema where
  type : String
  function_name : String
  function_description : String
  function_parameters : ArgsSchema
deriving Repr, DecidableEq

/-- `Environment.get_tools`: formats every stored tool in the OpenAI
function-calling shape
`{"type": "function", "function": {"name": t["tool_name"], "description":
t["description"], "parameters": t["parameters"]}}`, in storage order. -/
def Environment.get_tools (env : Environment) : List ToolSchema :=
  env.tools.map (fun t =>
    { type := "function"
      function_name := t.2.tool_name
      function_description := t.2.description
      function_parameters := t.2.parameters })

/-- Calling the `get_tools` method on the environment object: the method body
only reads `self.tools`, so the receiver state after the call is the receiver
state before it. -/
def Environment.get_tools_call (env : Environment) : List ToolSchema × Environment :=
  (env.get_tools, env)

/-- `Environment.run_tool`: look the name up in `self.tools`; when present,
call the implementation with the arguments expanded as keyword arguments
(any exception it raises is the `Except.error`); when absent, raise
`ValueError(f"Tool '{tool_name}' not found.")`. -/
def Environment.run_tool (env : Environment) (tool_name : String) (args : ArgsDict) :
    Except String String :=
  match env.tools.lookup tool_name with
  | some tool_info => tool_info.impl args
  | none => Except.error ("Tool '" ++ tool_name ++ "' not found.")

/-- The external collaborators of the loop: `llm.completion` (a gateway that,
given the transcript and the tool schemas, produces the assistant message of
the next model turn) and the standard-library `json.loads` (which raises on a
payload that is not valid JSON, modelled by `Except.error`). -/
structure World where
  gateway : List Message → List ToolSchema → Message
  jsonLoads : String → Except String ArgsDict

/-- The exceptions that can escape `Agent.run`: a `json.JSONDecodeError`
raised by `json.loads` on a tool call's `arguments` (the call to `json.loads`
is outside the `try` block), and the `ValueError` raised when
`max_iterations` is not positive. -/
inductive AgentError where
  | jsonDecode (msg : String)
  | invalidMaxIterations
deriving Repr, DecidableEq

/-- Which statement ended the loop of `Agent.run`: the `return response`
inside the loop body (natural finish), or falling off the end of the
`for` statement after `max_iterations` iterations (forced cutoff). -/
inductive LoopExit where
  | finished
  | exhausted
deriving Repr, DecidableEq

/-- Instrumented loop state: the transcript `self._messages` plus the count
of completed gateway requests. -/
structure RunState where
  messages : List Message
  completions : Nat
deriving Repr, DecidableEq

/-- The inner `for tool_call in response.tool_calls` loop of `Agent.run`:
`tool_args = json.loads(...)` runs before the `try`, so its failure aborts
the loop and propagates (returning the messages appended so far, since
`self._messages` mutations persist); a failure of `env.run_tool` is caught
and becomes the result string `"Error: " + str(e)`; each result is appended
as a tool message correlated by the call's id. -/
def processToolCalls (world : World) (env : Environment) :
    List ToolCall → List Message → List Message × Option String
  | [], msgs => (msgs, none)
  | tool_call :: rest, msgs =>
    match world.jsonLoads tool_call.function.arguments with
    | Except.error e => (msgs, some e)
    | Except.ok tool_args =>
      let result := match env.run_tool tool_call.function.name tool_args with
        | Except.ok r => r
        | Except.error e => "Error: " ++ e
      processToolCalls world env rest (msgs ++ [formatToolMessage result tool_call.id])

/-- Python truthiness of `response.tool_calls` in `if response.tool_calls:`:
truthy exactly when the value is present and non-empty; the truthy value is
returned for the dispatch branch. -/
def truthyToolCalls : Option (List ToolCall) → Option (List ToolCall)
  | some (c :: cs) => some (c :: cs)
  | _ => none

/-- Python truthiness of the hook's return value in `if new_instructions:`:
truthy exactly when it is a non-empty string. -/
def truthyInstructions : Option String → Option String
  | some s => if s.isEmpty then none else some s
  | none => none

/-- The `for _ in range(max_iterations)` loop of `Agent.run`, with the
remaining iteration count as fuel. Each iteration requests a completion,
appends the assistant message, then either dispatches the tool calls
(when `response.tool_calls` is truthy) or consults the continuation hook
(appending its truthy instruction as a user message and continuing, else
returning the response — `return response` inside the loop). The pair
component of the result is the final loop state in every case, including a
propagating exception. -/
def runLoop (world : World) (env : Environment) :
    Nat → RunState → LLMCompletionResponse →
    RunState × Except AgentError (LLMCompletionResponse × LoopExit)
  | 0, st, response => (st, Except.ok (response, LoopExit.exhausted))
  | fuel + 1, st, _ =>
    let response := LLMCompletionResponse.make (world.gateway st.messages env.get_tools)
    let st1 : RunState :=
      { messages := st.messages ++ [response.assistant_message]
        completions := st.completions + 1 }
    match truthyToolCalls response.tool_calls with
    | some calls =>
      match processToolCalls world env calls st1.messages with
      | (msgs, some e) => ({ st1 with messages := msgs }, Except.error (AgentError.jsonDecode e))
      | (msgs, none) => runLoop world env fuel { st1 with messages := msgs } response
    | none =>
      match truthyInstructions (env.handle_agent_response response) with
      | some s => runLoop world env fuel
          { st1 with messages := st1.messages ++ [formatUserMessage s] } response
      | none => (st1, Except.ok (response, LoopExit.finished))

/-- The default `response` variable of `Agent.run` before the first
iteration, `LLMCompletionResponse({})`. -/
def initialResponse : LLMCompletionResponse :=
  LLMCompletionResponse.make
    { role := "", content := none, tool_call_id := none, tool_calls := none }

/-- The value `Agent.run` produces for a caller, together with which return
path produced it. -/
structure FinalResult where
  response : LLMCompletionResponse
  exit : LoopExit
deriving Repr, DecidableEq

/-- The observable outcome of one `Agent.run` invocation: the final
transcript `self._messages`, the number of gateway requests performed, and
either the returned response or the exception that escaped. -/
structure RunTrace where
  messages : List Message
  completions : Nat
  result : Except AgentError FinalResult
deriving Repr

/-- An `Agent` as constructed by `Agent.__init__`: its environment and its
message history, already seeded with the optional system message. -/
structure Agent where
  env : Environment
  messages : List Message

/-- `Agent.run` of the packaged implementation
(`src/cli_assistant/ai/agent.py`): append the user task, raise `ValueError`
when the budget is not positive (for `Nat`, when it is zero), run the loop,
and on falling off the end of the `for` loop execute
`response.interrupted = True` before returning the last response. The
natural `return response` inside the loop returns the response object
untouched. -/
def Agent.run (world : World) (a : Agent) (user_task : String)
    (max_iterations : Nat) : RunTrace :=
  let msgs := a.messages ++ [formatUserMessage user_task]
  if max_iterations = 0 then
    { messages := msgs, completions := 0
      result := Except.error AgentError.invalidMaxIterations }
  else
    match runLoop world a.env max_iterations { messages := msgs, completions := 0 }
        initialResponse with
    | (st, Except.error e) =>
      { messages := st.messages, completions := st.completions, result := Except.error e }
    | (st, Except.ok (response, LoopExit.finished)) =>
      { messages := st.messages, completions := st.completions
        result := Except.ok { response := response, exit := LoopExit.finished } }
    | (st, Except.ok (response, LoopExit.exhausted)) =>
      { messages := st.messages, completions := st.completions
        result := Except.ok
          { response := pySetAttr response "interrupted" true, exit := LoopExit.exhausted } }

/-- `Agent.run` of the prototype implementation (`src/ai/agent.py`): the same
loop, but the fall-through after `max_iterations` iterations returns the last
response as is — no `interrupted` attribute is assigned on any path. -/
def protoAgentRun (world : World) (a : Agent) (user_task : String)
    (max_iterations : Nat) : RunTrace :=
  let msgs := a.messages ++ [formatUserMessage user_task]
  if max_iterations = 0 then
    { messages := msgs, completions := 0
      result := Except.error AgentError.invalidMaxIterations }
  else
    match runLoop world a.env max_iterations { messages := msgs, completions := 0 }
        initialResponse with
    | (st, Except.error e) =>
      { messages := st.messages, completions := st.completions, result := Except.error e }
    | (st, Except.ok (response, ex)) =>
      { messages := st.messages, completions := st.completions
        result := Except.ok { response := response, exit := ex } }

/-- The step of the `readmify` driver
(`src/cli_assistant/ai/assistants/readmify.py`) that follows `agent.run`:
it reads `response.interrupted` unconditionally (`if response.interrupted:`)
and prints a warning or a completion message; an `AttributeError` from the
read propagates. -/
def readmifyFinalize (response : LLMCompletionResponse) : Except String String :=
  match pyGetAttr response "interrupted" with
  | Except.error e => Except.error e
  | Except.ok true =>
    Except.ok "Warning: Max iterations reached before the agent could finish."
  | Except.ok false => Except.ok "README generation process complete!"

/-- One event at an interactive `input()` call: the user enters a line, or
the wait is cancelled (`KeyboardInterrupt` from a user interrupt, or
`EOFError` at end of input). An exhausted event list is end of input. -/
inductive InputEvent where
  | line (s : String)
  | cancel
deriving Repr, DecidableEq

/-- The `while not user_response: user_response = input("> ")` loop of
`ChatEnvironment.handle_agent_response`, together with its surrounding
`try`/`except (KeyboardInterrupt, EOFError)`: keep prompting past empty
lines; the first non-empty line is returned; a cancellation (or end of
input) is caught and yields `None`. -/
def chatInputLoop : List InputEvent → Option String
  | [] => none
  | InputEvent.cancel :: _ => none
  | InputEvent.line s :: rest => if s.isEmpty then chatInputLoop rest else some s

/-- `ChatEnvironment.handle_agent_response`
(`src/cli_assistant/ai/assistants/chat.py`): return `None` when the
`terminate` tool has set `should_terminate`; return `None` when the
response has no (or empty) content (`if not response:`); otherwise render
the content and solicit the next instruction with `chatInputLoop`. -/
def chatHandleAgentResponse (should_terminate : Bool)
    (agent_response : LLMCompletionResponse) (inputs : List InputEvent) :
    Option String :=
  if should_terminate then none
  else
    match agent_response.content with
    | none => none
    | some response =>
      if response.isEmpty then none
      else chatInputLoop inputs

/-- `Environment.read_user_prompt` of the prototype (`src/ai/agent.py`):
a bare `input(...)` with no exception handling — the entered line is
returned, and a cancellation of the wait (user interrupt or end of input)
propagates as an exception. -/
def readUserPrompt (inputs : List InputEvent) : Except String String :=
  match inputs with
  | InputEvent.line s :: _ => Except.ok s
  | InputEvent.cancel :: _ => Except.error "KeyboardInterrupt"
  | [] => Except.error "EOFError"

/-- `InteractiveEnvironment.handle_agent_response` of the prototype
(`src/ai/agent.py`): print the content, then `return
self.read_user_prompt()` — there is no `try`/`except`, so a cancellation of
the input wait escapes the hook (and `Agent.run`) as an exception. -/
def interactiveHandleAgentResponse (agent_response : LLMCompletionResponse)
    (inputs : List InputEvent) : Except String (Option String) :=
  match readUserPrompt inputs with
  | Except.ok s => Except.ok (some s)
  | Except.error e => Except.error e

/-- Modelled from the spec: the externally exposed schema wrapper described
in section 4.1, `{type: "function", function: {name, description,
parameters}}`, applied to one stored ToolSpec. Used to compare
`Environment.get_tools` against the spec's wording. -/
def specToolSchema (t : ToolInfo) : ToolSchema :=
  { type := "function"
    function_name := t.tool_name
    function_description := t.description
    function_parameters := t.parameters }

/-- The tool-dispatch loop only appends to the transcript. -/
theorem processToolCalls_messages_prefix (world : World) (env : Environment)
    (calls : List ToolCall) (msgs : List Message) :
    ∃ t, (processToolCalls world env calls msgs).1 = msgs ++ t := by
  induction calls generalizing msgs with
  | nil => exact ⟨[], by simp [processToolCalls]⟩
  | cons c rest ih =>
    simp only [processToolCalls]
    cases h : world.jsonLoads c.function.arguments with
    | error e => exact ⟨[], by simp⟩
    | ok args =>
      obtain ⟨t, ht⟩ := ih (msgs ++ [formatToolMessage
        (match env.run_tool c.function.name args with
          | Except.ok r => r
          | Except.error e => "Error: " ++ e) c.id])
      exact ⟨_, by rw [ht, List.append_assoc]⟩

/-- When every argument payload of the turn parses, the dispatch loop
finishes without a propagating exception. -/
theorem processToolCalls_ok (world : World) (env : Environment)
    (calls : List ToolCall) (msgs : List Message)
    (hparse : ∀ tc ∈ calls, ∃ a, world.jsonLoads tc.function.arguments = Except.ok a) :
    (processToolCalls world env calls msgs).2 = none := by
  induction calls generalizing msgs with
  | nil => simp [processToolCalls]
  | cons c rest ih =>
    obtain ⟨a, ha⟩ := hparse c (by simp)
    simp only [processToolCalls, ha]
    exact ih _ (fun tc htc => hparse tc (by simp [htc]))

/-- A tool call whose arguments parse but whose invocation raises with text
`m` leaves a tool message `"Error: " ++ m`, correlated by the call's id, in
the dispatched transcript. -/
theorem processToolCalls_error_message (world : World) (env : Environment)
    (calls : List ToolCall) (msgs : List Message) (tc : ToolCall)
    (htc : tc ∈ calls)
    (hparse : ∀ c ∈ calls, ∃ a, world.jsonLoads c.function.arguments = Except.ok a)
    (a : ArgsDict) (ha : world.jsonLoads tc.function.arguments = Except.ok a)
    (m : String) (herr : env.run_tool tc.function.name a = Except.error m) :
    formatToolMessage ("Error: " ++ m) tc.id ∈ (processToolCalls world env calls msgs).1 := by
  induction calls generalizing msgs with
  | nil => cases htc
  | cons c rest ih =>
    rcases List.mem_cons.mp htc with hc | hrest
    · subst hc
      simp only [processToolCalls, ha, herr]
      obtain ⟨t, ht⟩ := processToolCalls_messages_prefix world env rest
        (msgs ++ [formatToolMessage ("Error: " ++ m) tc.id])
      rw [ht]
      simp
    · obtain ⟨a0, ha0⟩ := hparse c (by simp)
      simp only [processToolCalls, ha0]
      exact ih _ hrest (fun c1 hc1 => hparse c1 (List.mem_cons_of_mem _ hc1))

/-- Accessor reduction: the response constructed from a gateway message. -/
theorem make_assistant_message (m : Message) :
    (LLMCompletionResponse.make m).assistant_message = m := rfl

/-- Accessor reduction for the `tool_calls` property of a constructed
response. -/
theorem make_tool_calls (m : Message) :
    (LLMCompletionResponse.make m).tool_calls = m.tool_calls := rfl

/-- Accessor reduction for the `content` property of a constructed
response. -/
theorem make_content (m : Message) :
    (LLMCompletionResponse.make m).content = m.content := rfl

/-- The agent loop only appends to the transcript. -/
theorem runLoop_messages_prefix (world : World) (env : Environment)
    (fuel : Nat) (st : RunState) (resp : LLMCompletionResponse) :
    ∃ t, (runLoop world env fuel st resp).1.messages = st.messages ++ t := by
  induction fuel generalizing st resp with
  | zero => exact ⟨[], by simp [runLoop]⟩
  | succ n ih =>
    simp only [runLoop]
    rcases hc : truthyToolCalls
        (LLMCompletionResponse.make (world.gateway st.messages env.get_tools)).tool_calls
      with _ | calls
    · simp only [hc]
      rcases hh : truthyInstructions (env.handle_agent_response
          (LLMCompletionResponse.make (world.gateway st.messages env.get_tools)))
        with _ | s
      · simp only [hh]
        exact ⟨_, rfl⟩
      · simp only [hh]
        obtain ⟨t, ht⟩ := ih
          { messages := st.messages ++
              [(LLMCompletionResponse.make
                  (world.gateway st.messages env.get_tools)).assistant_message] ++
              [formatUserMessage s]
            completions := st.completions + 1 }
          (LLMCompletionResponse.make (world.gateway st.messages env.get_tools))
        refine ⟨[(LLMCompletionResponse.make
            (world.gateway st.messages env.get_tools)).assistant_message] ++
            [formatUserMessage s] ++ t, ?_⟩
        rw [ht]
        simp only [List.append_assoc]
    · simp only [hc]
      rcases hp : processToolCalls world env calls
          (st.messages ++
            [(LLMCompletionResponse.make
                (world.gateway st.messages env.get_tools)).assistant_message])
        with ⟨msgs, oe⟩
      obtain ⟨t1, ht1⟩ := processToolCalls_messages_prefix world env calls
        (st.messages ++
          [(LLMCompletionResponse.make
              (world.gateway st.messages env.get_tools)).assistant_message])
      rw [hp] at ht1
      simp only at ht1
      rcases oe with _ | e
      · simp only [hp]
        obtain ⟨t2, ht2⟩ := ih { messages := msgs, completions := st.completions + 1 }
          (LLMCompletionResponse.make (world.gateway st.messages env.get_tools))
        refine ⟨[(LLMCompletionResponse.make
            (world.gateway st.messages env.get_tools)).assistant_message] ++ t1 ++ t2, ?_⟩
        simp only at ht2
        rw [ht2, ht1]
        simp only [List.append_assoc]
      · simp only [hp]
        refine ⟨[(LLMCompletionResponse.make
            (world.gateway st.messages env.get_tools)).assistant_message] ++ t1, ?_⟩
        show msgs = _
        rw [ht1]
        simp only [List.append_assoc]

/-- One iteration of the loop raises the completion count by one, so the
count after the loop is bounded by the fuel supplied. -/
theorem runLoop_completions_le (world : World) (env : Environment)
    (fuel : Nat) (st : RunState) (resp : LLMCompletionResponse) :
    (runLoop world env fuel st resp).1.completions ≤ st.completions + fuel := by
  induction fuel generalizing st resp with
  | zero => simp [runLoop]
  | succ n ih =>
    simp only [runLoop]
    rcases hc : truthyToolCalls
        (LLMCompletionResponse.make (world.gateway st.messages env.get_tools)).tool_calls
      with _ | calls
    · simp only [hc]
      rcases hh : truthyInstructions (env.handle_agent_response
          (LLMCompletionResponse.make (world.gateway st.messages env.get_tools)))
        with _ | s
      · simp only [hh]
        omega
      · simp only [hh]
        calc _ ≤ st.completions + 1 + n := ih _ _
        _ = st.completions + (n + 1) := by omega
    · simp only [hc]
      rcases hp : processToolCalls world env calls
          (st.messages ++
            [(LLMCompletionResponse.make
                (world.gateway st.messages env.get_tools)).assistant_message])
        with ⟨msgs, oe⟩
      rcases oe with _ | e
      · simp only [hp]
        calc _ ≤ st.completions + 1 + n := ih _ _
        _ = st.completions + (n + 1) := by omega
      · simp only [hp]
        omega

/-- The completion count never decreases across the loop. -/
theorem runLoop_completions_mono (world : World) (env : Environment)
    (fuel : Nat) (st : RunState) (resp : LLMCompletionResponse) :
    st.completions ≤ (runLoop world env fuel st resp).1.completions := by
  induction fuel generalizing st resp with
  | zero => simp [runLoop]
  | succ n ih =>
    simp only [runLoop]
    rcases hc : truthyToolCalls
        (LLMCompletionResponse.make (world.gateway st.messages env.get_tools)).tool_calls
      with _ | calls
    · simp only [hc]
      rcases hh : truthyInstructions (env.handle_agent_response
          (LLMCompletionResponse.make (world.gateway st.messages env.get_tools)))
        with _ | s
      · simp only [hh]
        omega
      · simp only [hh]
        have h2 := ih
          { messages := st.messages ++
              [(LLMCompletionResponse.make
                  (world.gateway st.messages env.get_tools)).assistant_message] ++
              [formatUserMessage s]
            completions := st.completions + 1 }
          (LLMCompletionResponse.make (world.gateway st.messages env.get_tools))
        simp only at h2
        omega
    · simp only [hc]
      rcases hp : processToolCalls world env calls
          (st.messages ++
            [(LLMCompletionResponse.make
                (world.gateway st.messages env.get_tools)).assistant_message])
        with ⟨msgs, oe⟩
      rcases oe with _ | e
      · simp only [hp]
        have h2 := ih { messages := msgs, completions := st.completions + 1 }
          (LLMCompletionResponse.make (world.gateway st.messages env.get_tools))
        simp only at h2
        omega
      · simp only [hp]
        omega

/-- As soon as there is fuel for one iteration, the gateway is invoked at
least once more. -/
theorem runLoop_completions_ge (world : World) (env : Environment)
    (fuel : Nat) (st : RunState) (resp : LLMCompletionResponse)
    (hfuel : 1 ≤ fuel) :
    st.completions + 1 ≤ (runLoop world env fuel st resp).1.completions := by
  rcases fuel with _ | n
  · omega
  simp only [runLoop]
  rcases hc : truthyToolCalls
      (LLMCompletionResponse.make (world.gateway st.messages env.get_tools)).tool_calls
    with _ | calls
  · simp only [hc]
    rcases hh : truthyInstructions (env.handle_agent_response
        (LLMCompletionResponse.make (world.gateway st.messages env.get_tools)))
      with _ | s
    · simp only [hh]
      omega
    · simp only [hh]
      have h2 := runLoop_completions_mono world env n
        { messages := st.messages ++
            [(LLMCompletionResponse.make
                (world.gateway st.messages env.get_tools)).assistant_message] ++
            [formatUserMessage s]
          completions := st.completions + 1 }
        (LLMCompletionResponse.make (world.gateway st.messages env.get_tools))
      simpa using h2
  · simp only [hc]
    rcases hp : processToolCalls world env calls
        (st.messages ++
          [(LLMCompletionResponse.make
              (world.gateway st.messages env.get_tools)).assistant_message])
      with ⟨msgs, oe⟩
    rcases oe with _ | e
    · simp only [hp]
      have h2 := runLoop_completions_mono world env n
        { messages := msgs, completions := st.completions + 1 }
        (LLMCompletionResponse.make (world.gateway st.messages env.get_tools))
      simpa using h2
    · simp only [hp]
      omega

/-- A response returned by the `return response` statement inside the loop is
the response object freshly constructed in that iteration: no dynamic
attribute has been assigned to it. -/
theorem runLoop_finished_attrs (world : World) (env : Environment)
    (fuel : Nat) (st : RunState) (resp : LLMCompletionResponse)
    (st' : RunState) (r : LLMCompletionResponse)
    (h : runLoop world env fuel st resp = (st', Except.ok (r, LoopExit.finished))) :
    r.attrs = [] := by
  induction fuel generalizing st resp with
  | zero =>
    simp only [runLoop, Prod.mk.injEq, Except.ok.injEq] at h
    exact absurd h.2.2 (by simp)
  | succ n ih =>
    simp only [runLoop] at h
    rcases hc : truthyToolCalls
        (LLMCompletionResponse.make (world.gateway st.messages env.get_tools)).tool_calls
      with _ | calls
    · simp only [hc] at h
      rcases hh : truthyInstructions (env.handle_agent_response
          (LLMCompletionResponse.make (world.gateway st.messages env.get_tools)))
        with _ | s
      · simp only [hh, Prod.mk.injEq, Except.ok.injEq] at h
        rw [← h.2.1]
        rfl
      · simp only [hh] at h
        exact ih _ _ h
    · simp only [hc] at h
      rcases hp : processToolCalls world env calls
          (st.messages ++
            [(LLMCompletionResponse.make
                (world.gateway st.messages env.get_tools)).assistant_message])
        with ⟨msgs, oe⟩
      simp only [hp] at h
      rcases oe with _ | e
      · exact ih _ _ h
      · simp only [Prod.mk.injEq] at h
        exact absurd h.2 (by simp)

/-- The precondition of the budget-exhaustion scenario: at every transcript
the gateway either issues tool calls whose argument payloads all parse, or
issues a plain turn for which the continuation hook produces a (truthy)
instruction. -/
def alwaysBusy (world : World) (env : Environment) : Prop :=
  ∀ msgs : List Message,
    (∃ calls, truthyToolCalls (world.gateway msgs env.get_tools).tool_calls = some calls ∧
      ∀ tc ∈ calls, ∃ a, world.jsonLoads tc.function.arguments = Except.ok a) ∨
    (truthyToolCalls (world.gateway msgs env.get_tools).tool_calls = none ∧
      ∃ s, truthyInstructions (env.handle_agent_response
        (LLMCompletionResponse.make (world.gateway msgs env.get_tools))) = some s)

/-- Under `alwaysBusy` the loop consumes all its fuel and falls off the end
of the `for` statement, performing one gateway request per unit of fuel. -/
theorem runLoop_alwaysBusy (world : World) (env : Environment)
    (hbusy : alwaysBusy world env) (fuel : Nat) (st : RunState)
    (resp : LLMCompletionResponse) :
    ∃ st' r, runLoop world env fuel st resp = (st', Except.ok (r, LoopExit.exhausted)) ∧
      st'.completions = st.completions + fuel := by
  induction fuel generalizing st resp with
  | zero => exact ⟨st, resp, rfl, rfl⟩
  | succ n ih =>
    simp only [runLoop]
    rcases hbusy st.messages with ⟨calls, hc, hparse⟩ | ⟨hc, s, hh⟩
    · rw [show (LLMCompletionResponse.make
          (world.gateway st.messages env.get_tools)).tool_calls
          = (world.gateway st.messages env.get_tools).tool_calls from rfl, hc]
      rcases hp : processToolCalls world env calls
          (st.messages ++
            [(LLMCompletionResponse.make
                (world.gateway st.messages env.get_tools)).assistant_message])
        with ⟨msgs, oe⟩
      have hok := processToolCalls_ok world env calls
        (st.messages ++
          [(LLMCompletionResponse.make
              (world.gateway st.messages env.get_tools)).assistant_message]) hparse
      rw [hp] at hok
      simp only at hok
      subst hok
      simp only [hp]
      obtain ⟨st', r, hrun, hcomp⟩ := ih { messages := msgs, completions := st.completions + 1 }
        (LLMCompletionResponse.make (world.gateway st.messages env.get_tools))
      refine ⟨st', r, hrun, ?_⟩
      simp only at hcomp
      omega
    · rw [show (LLMCompletionResponse.make
          (world.gateway st.messages env.get_tools)).tool_calls
          = (world.gateway st.messages env.get_tools).tool_calls from rfl, hc, hh]
      obtain ⟨st', r, hrun, hcomp⟩ := ih
        { messages := st.messages ++
            [(LLMCompletionResponse.make
                (world.gateway st.messages env.get_tools)).assistant_message] ++
            [formatUserMessage s]
          completions := st.completions + 1 }
        (LLMCompletionResponse.make (world.gateway st.messages env.get_tools))
      refine ⟨st', r, hrun, ?_⟩
      simp only at hcomp
      omega

/-- The transcript and the request count that `Agent.run` reports are those
of the underlying loop (for a positive budget). -/
theorem agentRun_state (world : World) (a : Agent) (task : String) (n : Nat)
    (hn : n ≠ 0) :
    (Agent.run world a task n).messages =
      (runLoop world a.env n
        { messages := a.messages ++ [formatUserMessage task], completions := 0 }
        initialResponse).1.messages ∧
    (Agent.run world a task n).completions =
      (runLoop world a.env n
        { messages := a.messages ++ [formatUserMessage task], completions := 0 }
        initialResponse).1.completions := by
  simp only [Agent.run, hn, if_false]
  rcases hr : runLoop world a.env n
      { messages := a.messages ++ [formatUserMessage task], completions := 0 }
      initialResponse with ⟨st, res⟩
  rcases res with e | ⟨r, ex⟩
  · simp
  · rcases ex with _ | _ <;> simp

/-- A concrete stand-in for the external `json.loads` in scenario stubs: the
empty-object payload parses to the empty dictionary, anything else raises a
decode error. -/
def jsonLoadsStub : String → Except String ArgsDict :=
  fun s => if s = "{}" then Except.ok [] else Except.error ("Expecting value: " ++ s)

/-- An assistant message carrying exactly one tool call. -/
def assistantToolCallMessage (id name args : String) : Message :=
  { role := "assistant", content := none, tool_call_id := none,
    tool_calls := some [{ id := id, function := { name := name, arguments := args } }] }

/-- An assistant message carrying plain text and no tool calls. -/
def assistantTextMessage (text : String) : Message :=
  { role := "assistant", content := some text, tool_call_id := none, tool_calls := none }

/-- An environment with no registered tools and the default (base-class)
continuation hook. -/
def emptyEnvironment : Environment :=
  { tools := [], handle_agent_response := fun _ => none }

/-- A gateway stub that always requests the same tool call whose `arguments`
payload is not valid JSON. -/
def badArgsWorld : World :=
  { gateway := fun _ _ => assistantToolCallMessage "call_1" "test_tool" "not json"
    jsonLoads := jsonLoadsStub }

/-- Claim C1, corrected. In `Agent.run` the statement
`tool_args = json.loads(tool_call["function"]["arguments"])` runs before the
`try` block, so when the model turn's first tool call carries an `arguments`
payload that `json.loads` rejects, the decode exception propagates out of
`Agent.run`; it is not converted into a tool-result error message. -/
theorem c1_parse_failure_escapes (world : World) (env : Environment)
    (init : List Message) (task : String) (fuel : Nat) (tc : ToolCall)
    (rest : List ToolCall) (e : String) (hfuel : fuel ≠ 0)
    (hc : truthyToolCalls
      (world.gateway (init ++ [formatUserMessage task]) env.get_tools).tool_calls
      = some (tc :: rest))
    (he : world.jsonLoads tc.function.arguments = Except.error e) :
    (Agent.run world { env := env, messages := init } task fuel).result
      = Except.error (AgentError.jsonDecode e) := by
  rcases fuel with _ | n
  · exact absurd rfl hfuel
  simp only [Agent.run, Nat.succ_ne_zero, if_false, runLoop]
  rw [show (LLMCompletionResponse.make
      (world.gateway (init ++ [formatUserMessage task]) env.get_tools)).tool_calls
      = (world.gateway (init ++ [formatUserMessage task]) env.get_tools).tool_calls
    from rfl, hc]
  simp only [processToolCalls, he]

/-- Witness for the corrected claim C1: a concrete stub on which the decode
failure escapes `Agent.run`. -/
theorem c1_parse_failure_escapes_witness :
    (Agent.run badArgsWorld { env := emptyEnvironment, messages := [] } "task" 3).result
      = Except.error (AgentError.jsonDecode "Expecting value: not json") :=
  c1_parse_failure_escapes badArgsWorld emptyEnvironment [] "task" 3
    { id := "call_1", function := { name := "test_tool", arguments := "not json" } }
    [] "Expecting value: not json" (by decide) rfl rfl

/-- Counterexample to claim C1 as stated: on a turn whose tool call carries
the non-JSON payload `"not json"`, `Agent.run` ends with a propagating
decode exception, and the transcript contains no tool-result error message —
it ends at the assistant turn that requested the call. -/
theorem c1_counterexample :
    (Agent.run badArgsWorld { env := emptyEnvironment, messages := [] } "task" 3).result
      = Except.error (AgentError.jsonDecode "Expecting value: not json") ∧
    (Agent.run badArgsWorld { env := emptyEnvironment, messages := [] } "task" 3).messages
      = [formatUserMessage "task",
         assistantToolCallMessage "call_1" "test_tool" "not json"] :=
  ⟨rfl, rfl⟩

/-- A registered tool that always succeeds, used by looping stubs. -/
def loopToolInfo : ToolInfo :=
  { impl := fun _ => Except.ok "loop result", tool_name := "loop_tool",
    description := "A looping tool.",
    parameters := { type := "object", properties := [], required := [] } }

/-- An environment owning only `loop_tool`, with the default hook. -/
def loopEnvironment : Environment :=
  { tools := [("loop_tool", loopToolInfo)], handle_agent_response := fun _ => none }

/-- A gateway stub that always returns the same tool-call message (infinite
loop potential), with well-formed `"{}"` arguments. -/
def loopWorld : World :=
  { gateway := fun _ _ => assistantToolCallMessage "call_loop" "loop_tool" "{}"
    jsonLoads := jsonLoadsStub }

/-- Claim C2, confirmed for the packaged `Agent.run`
(`src/cli_assistant/ai/agent.py`, the implementation the spec's design notes
adopt): for every gateway behavior at most `max_iterations` completion
requests are performed; and whenever every turn either keeps issuing
parseable tool calls or keeps obtaining instructions from the continuation
hook, the run stops after exactly `max_iterations` requests and the returned
response carries the dynamically attached marker `interrupted = True`. -/
theorem c2_budget_and_interrupted_marker :
    (∀ (world : World) (a : Agent) (task : String) (n : Nat),
      (Agent.run world a task n).completions ≤ n) ∧
    (∀ (world : World) (env : Environment) (init : List Message) (task : String)
      (n : Nat), n ≠ 0 → alwaysBusy world env →
      (Agent.run world { env := env, messages := init } task n).completions = n ∧
      ∃ fr, (Agent.run world { env := env, messages := init } task n).result
          = Except.ok fr ∧
        fr.exit = LoopExit.exhausted ∧
        pyGetAttr fr.response "interrupted" = Except.ok true) := by
  constructor
  · intro world a task n
    by_cases hn : n = 0
    · subst hn
      simp [Agent.run]
    · have hs := agentRun_state world a task n hn
      rw [hs.2]
      have hle := runLoop_completions_le world a.env n
        { messages := a.messages ++ [formatUserMessage task], completions := 0 }
        initialResponse
      simpa using hle
  · intro world env init task n hn hbusy
    obtain ⟨st', r, hrun, hcomp⟩ := runLoop_alwaysBusy world env hbusy n
      { messages := init ++ [formatUserMessage task], completions := 0 } initialResponse
    have hs := agentRun_state world { env := env, messages := init } task n hn
    constructor
    · rw [hs.2, hrun]
      simpa using hcomp
    · refine ⟨{ response := pySetAttr r "interrupted" true, exit := LoopExit.exhausted },
        ?_, rfl, ?_⟩
      · simp only [Agent.run, hn, if_false]
        rw [hrun]
      · rfl

/-- Witness for claim C2: the spec's scenario — a gateway stub that always
returns a tool-call message and a budget of 3 — yields exactly 3 gateway
requests and an interrupted marker on the result. -/
theorem c2_witness :
    (Agent.run loopWorld { env := loopEnvironment, messages := [] }
      "Loop forever" 3).completions = 3 ∧
    ∃ fr, (Agent.run loopWorld { env := loopEnvironment, messages := [] }
        "Loop forever" 3).result = Except.ok fr ∧
      fr.exit = LoopExit.exhausted ∧
      pyGetAttr fr.response "interrupted" = Except.ok true := by
  have hb : alwaysBusy loopWorld loopEnvironment := by
    intro msgs
    left
    refine ⟨[ToolCall.mk "call_loop" (ToolCallFunction.mk "loop_tool" "{}")], rfl, ?_⟩
    intro tc htc
    have h := List.mem_singleton.mp htc
    subst h
    exact ⟨[], rfl⟩
  exact c2_budget_and_interrupted_marker.2 loopWorld loopEnvironment [] "Loop forever" 3
    (by decide) hb

/-- A registered tool whose invocation raises an exception with message
`boom`. -/
def boomToolInfo : ToolInfo :=
  { impl := fun _ => Except.error "boom", tool_name := "failing_tool",
    description := "A tool that raises.",
    parameters := { type := "object", properties := [], required := [] } }

/-- An environment owning only the failing tool, with the default hook. -/
def boomEnvironment : Environment :=
  { tools := [("failing_tool", boomToolInfo)], handle_agent_response := fun _ => none }

/-- A gateway stub that requests the failing tool on the first turn and
answers with plain text afterwards. -/
def boomWorld : World :=
  { gateway := fun msgs _ =>
      if msgs.length == 1 then assistantToolCallMessage "call_456" "failing_tool" "{}"
      else assistantTextMessage "Fallback response."
    jsonLoads := jsonLoadsStub }

/-- Claim C3, confirmed: when a tool call of the first model turn parses but
`Environment.run_tool` raises with text `m` — whether because the name is
absent from the registry (`run_tool` raises `ValueError`) or because the
implementation raised — `Agent.run` appends a tool message whose content is
`"Error: " ++ m` correlated with the call's id, and requests another
completion instead of letting the exception escape the loop. -/
theorem c3_tool_error_contained (world : World) (env : Environment)
    (init : List Message) (task : String) (fuel : Nat) (hfuel : 2 ≤ fuel)
    (calls : List ToolCall)
    (hc : truthyToolCalls
      (world.gateway (init ++ [formatUserMessage task]) env.get_tools).tool_calls
      = some calls)
    (hparse : ∀ c ∈ calls, ∃ a, world.jsonLoads c.function.arguments = Except.ok a)
    (tc : ToolCall) (htc : tc ∈ calls) (a : ArgsDict)
    (ha : world.jsonLoads tc.function.arguments = Except.ok a)
    (m : String) (herr : env.run_tool tc.function.name a = Except.error m) :
    formatToolMessage ("Error: " ++ m) tc.id
      ∈ (Agent.run world { env := env, messages := init } task fuel).messages ∧
    2 ≤ (Agent.run world { env := env, messages := init } task fuel).completions := by
  have hfz : fuel ≠ 0 := by omega
  have hs := agentRun_state world { env := env, messages := init } task fuel hfz
  rw [hs.1, hs.2]
  rcases fuel with _ | n
  · omega
  simp only [runLoop]
  rw [show (LLMCompletionResponse.make
      (world.gateway (init ++ [formatUserMessage task]) env.get_tools)).tool_calls
      = (world.gateway (init ++ [formatUserMessage task]) env.get_tools).tool_calls
    from rfl, hc]
  have hok := processToolCalls_ok world env calls
    (init ++ [formatUserMessage task] ++
      [(LLMCompletionResponse.make
          (world.gateway (init ++ [formatUserMessage task]) env.get_tools)).assistant_message])
    hparse
  rcases hp : processToolCalls world env calls
      (init ++ [formatUserMessage task] ++
        [(LLMCompletionResponse.make
            (world.gateway (init ++ [formatUserMessage task]) env.get_tools)).assistant_message])
    with ⟨msgs1, oe⟩
  rw [hp] at hok
  simp only at hok
  subst hok
  simp only [hp]
  have hmem := processToolCalls_error_message world env calls
    (init ++ [formatUserMessage task] ++
      [(LLMCompletionResponse.make
          (world.gateway (init ++ [formatUserMessage task]) env.get_tools)).assistant_message])
    tc htc hparse a ha m herr
  rw [hp] at hmem
  simp only at hmem
  constructor
  · obtain ⟨t, ht⟩ := runLoop_messages_prefix world env n
      { messages := msgs1, completions := 0 + 1 }
      (LLMCompletionResponse.make (world.gateway (init ++ [formatUserMessage task]) env.get_tools))
    rw [ht]
    exact List.mem_append.mpr (Or.inl hmem)
  · have hge := runLoop_completions_ge world env n
      { messages := msgs1, completions := 0 + 1 }
      (LLMCompletionResponse.make (world.gateway (init ++ [formatUserMessage task]) env.get_tools))
      (by omega)
    simp only at hge
    omega

/-- Witness for claim C3: the spec's scenario — a tool raising `boom` — puts
a tool message containing `Error: boom` in the transcript, correlated to
`call_456`, and the loop requests a second completion. -/
theorem c3_tool_error_contained_witness :
    formatToolMessage ("Error: " ++ "boom") "call_456"
      ∈ (Agent.run boomWorld { env := boomEnvironment, messages := [] }
          "Run the failing tool." 2).messages ∧
    2 ≤ (Agent.run boomWorld { env := boomEnvironment, messages := [] }
          "Run the failing tool." 2).completions := by
  refine c3_tool_error_contained boomWorld boomEnvironment [] "Run the failing tool." 2
    (by omega) [ToolCall.mk "call_456" (ToolCallFunction.mk "failing_tool" "{}")] rfl
    ?_ (ToolCall.mk "call_456" (ToolCallFunction.mk "failing_tool" "{}")) (by simp)
    [] rfl "boom" rfl
  intro c hcm
  have h := List.mem_singleton.mp hcm
  subst h
  exact ⟨[], rfl⟩

/-- Claim C5, confirmed: when the first model turn has no (truthy) tool
calls, the continuation hook's non-empty string is appended as a user
message and a second completion is requested; when the second turn's hook
returns nothing, the run ends with that turn's response. The final trace has
exactly two completion requests and the transcript holds exactly one extra
user message — the hook's string — between the two assistant turns. -/
theorem c5_continuation_hook (world : World) (env : Environment)
    (init : List Message) (task : String) (fuel : Nat) (hfuel : 2 ≤ fuel)
    (g1 g2 : Message) (s : String)
    (hg1 : world.gateway (init ++ [formatUserMessage task]) env.get_tools = g1)
    (hc1 : truthyToolCalls g1.tool_calls = none)
    (hh1 : env.handle_agent_response (LLMCompletionResponse.make g1) = some s)
    (hs : s.isEmpty = false)
    (hg2 : world.gateway
        (init ++ [formatUserMessage task] ++ [g1] ++ [formatUserMessage s])
        env.get_tools = g2)
    (hc2 : truthyToolCalls g2.tool_calls = none)
    (hh2 : env.handle_agent_response (LLMCompletionResponse.make g2) = none) :
    Agent.run world { env := env, messages := init } task fuel =
      { messages := init ++ [formatUserMessage task] ++ [g1] ++
          [formatUserMessage s] ++ [g2]
        completions := 2
        result := Except.ok
          { response := LLMCompletionResponse.make g2, exit := LoopExit.finished } } := by
  rcases fuel with _ | f
  · omega
  rcases f with _ | n
  · omega
  have key : runLoop world env (n + 1 + 1)
      { messages := init ++ [formatUserMessage task], completions := 0 } initialResponse
      = ({ messages := init ++ [formatUserMessage task] ++ [g1] ++
            [formatUserMessage s] ++ [g2]
           completions := 0 + 1 + 1 },
         Except.ok (LLMCompletionResponse.make g2, LoopExit.finished)) := by
    simp only [runLoop]
    rw [hg1]
    rw [show (LLMCompletionResponse.make g1).tool_calls = g1.tool_calls from rfl, hc1]
    rw [hh1]
    simp only [truthyInstructions, hs, Bool.false_eq_true, if_false,
      make_assistant_message]
    rw [hg2]
    rw [show (LLMCompletionResponse.make g2).tool_calls = g2.tool_calls from rfl, hc2]
    rw [hh2]
  simp only [Agent.run, Nat.succ_ne_zero, if_false]
  rw [key]

/-- A gateway stub with no tool calls: first turn says one thing, later
turns another. -/
def contWorld : World :=
  { gateway := fun msgs _ =>
      if msgs.length == 1 then assistantTextMessage "First task done."
      else assistantTextMessage "Second task done."
    jsonLoads := jsonLoadsStub }

/-- An environment whose hook returns a follow-up instruction exactly once
(after the first answer) and nothing afterwards. -/
def contEnvironment : Environment :=
  { tools := []
    handle_agent_response := fun r =>
      if r.content == some "First task done." then some "Now do this other thing."
      else none }

/-- Witness for claim C5: with the once-then-nothing hook and budget 3, the
run performs exactly two completion requests and the transcript is
`[user task, assistant, user follow-up, assistant]`. -/
theorem c5_continuation_hook_witness :
    Agent.run contWorld { env := contEnvironment, messages := [] }
        "Do the first thing." 3 =
      { messages := [] ++ [formatUserMessage "Do the first thing."] ++
          [assistantTextMessage "First task done."] ++
          [formatUserMessage "Now do this other thing."] ++
          [assistantTextMessage "Second task done."]
        completions := 2
        result := Except.ok
          { response := LLMCompletionResponse.make
              (assistantTextMessage "Second task done.")
            exit := LoopExit.finished } } :=
  c5_continuation_hook contWorld contEnvironment [] "Do the first thing." 3 (by omega)
    (assistantTextMessage "First task done.") (assistantTextMessage "Second task done.")
    "Now do this other thing." rfl rfl rfl rfl rfl rfl rfl

/-- A gateway stub that immediately answers with plain text. -/
def finishWorld : World :=
  { gateway := fun _ _ => assistantTextMessage "Task complete."
    jsonLoads := jsonLoadsStub }

/-- Claim C7, confirmed: a run that returns through the in-loop
`return response` (the continuation hook produced nothing) hands back a
response object whose instance dictionary is empty — `interrupted` is not a
declared field of `LLMCompletionResponse` and is assigned only on the
budget-exhaustion path — so reading `response.interrupted` unconditionally,
as the `readmify` driver does, raises `AttributeError` instead of observing
`False`. -/
theorem c7_natural_return_lacks_interrupted (world : World) (env : Environment)
    (init : List Message) (task : String) (n : Nat) (fr : FinalResult)
    (hok : (Agent.run world { env := env, messages := init } task n).result
      = Except.ok fr)
    (hfin : fr.exit = LoopExit.finished) :
    fr.response.attrs = [] ∧
    pyGetAttr fr.response "interrupted"
      = Except.error ("AttributeError: " ++ "interrupted") ∧
    readmifyFinalize fr.response
      = Except.error ("AttributeError: " ++ "interrupted") := by
  by_cases hn : n = 0
  · subst hn
    have hbad : Except.error AgentError.invalidMaxIterations = Except.ok fr := hok
    cases hbad
  · simp only [Agent.run, hn, if_false] at hok
    rcases hr : runLoop world env n
        { messages := init ++ [formatUserMessage task], completions := 0 }
        initialResponse with ⟨st, res⟩
    rw [hr] at hok
    rcases res with e | ⟨r, ex⟩
    · have hbad : Except.error e = Except.ok fr := hok
      cases hbad
    · rcases ex with _ | _
      · have hok2 : Except.ok
            ({ response := r, exit := LoopExit.finished } : FinalResult)
            = Except.ok fr := hok
        have hfr : fr = { response := r, exit := LoopExit.finished } :=
          (Except.ok.inj hok2).symm
        subst hfr
        have hattrs : r.attrs = [] :=
          runLoop_finished_attrs world env n _ initialResponse st r hr
        refine ⟨hattrs, ?_, ?_⟩
        · simp [pyGetAttr, hattrs]
        · simp [readmifyFinalize, pyGetAttr, hattrs]
      · have hok2 : Except.ok
            ({ response := pySetAttr r "interrupted" true,
               exit := LoopExit.exhausted } : FinalResult)
            = Except.ok fr := hok
        have hfr : fr = FinalResult.mk (pySetAttr r "interrupted" true)
            LoopExit.exhausted := (Except.ok.inj hok2).symm
        rw [hfr] at hfin
        cases hfin

/-- Witness for claim C7: a one-turn natural completion carries no
`interrupted` attribute, and the `readmify` read raises `AttributeError`. -/
theorem c7_natural_return_lacks_interrupted_witness :
    (LLMCompletionResponse.make (assistantTextMessage "Task complete.")).attrs = [] ∧
    pyGetAttr (LLMCompletionResponse.make (assistantTextMessage "Task complete."))
        "interrupted" = Except.error ("AttributeError: " ++ "interrupted") ∧
    readmifyFinalize (LLMCompletionResponse.make (assistantTextMessage "Task complete."))
      = Except.error ("AttributeError: " ++ "interrupted") :=
  c7_natural_return_lacks_interrupted finishWorld emptyEnvironment []
    "Generate a README." 1
    { response := LLMCompletionResponse.make (assistantTextMessage "Task complete.")
      exit := LoopExit.finished }
    rfl rfl

/-- A capability whose method has no docstring. -/
def noDocCapability : Capability :=
  { name := "no_doc_tool", doc := none,
    params := [Param.mk "self" false none],
    impl := fun _ => Except.ok "ok" }

/-- Claim C4, corrected: decorating a method that has no docstring does not
fail — `Environment.tool` falls back to the empty description
(`func.__doc__.strip() if func.__doc__ else ""`), and `_collect_tools`
registers the capability at construction with that empty description. -/
theorem c4_no_docstring_registers_empty (cap : Capability) (attr : String)
    (hook : LLMCompletionResponse → Option String)
    (hdoc : cap.doc = none) (hpriv : pyStartsWithUnderscore attr = false) :
    (Environment.tool cap).description = "" ∧
    (Environment.make [(attr, some (Environment.tool cap))] hook).tools
      = [(attr, Environment.tool cap)] := by
  constructor
  · simp [Environment.tool, hdoc]
  · simp [Environment.make, collectTools, collectStep, hpriv]

/-- Witness for the corrected claim C4: the concrete docstring-less
capability registers with an empty description. -/
theorem c4_no_docstring_registers_empty_witness :
    (Environment.tool noDocCapability).description = "" ∧
    (Environment.make [("no_doc_tool", some (Environment.tool noDocCapability))]
        (fun _ => none)).tools
      = [("no_doc_tool", Environment.tool noDocCapability)] :=
  c4_no_docstring_registers_empty noDocCapability "no_doc_tool" (fun _ => none) rfl rfl

/-- Counterexample to claim C4 as stated: registration of a docstring-less
tool succeeds — the Environment is constructed with the tool present and an
empty description, rather than failing at registration time. -/
theorem c4_counterexample :
    (Environment.tool noDocCapability).description = "" ∧
    (Environment.make [("no_doc_tool", some (Environment.tool noDocCapability))]
        (fun _ => none)).tools.lookup "no_doc_tool"
      = some (Environment.tool noDocCapability) :=
  ⟨rfl, rfl⟩

/-- The chat input loop returns `None` when the user's events are empty
lines followed by a cancellation: the `except (KeyboardInterrupt, EOFError)`
around the `while` loop catches the cancellation. -/
theorem chatInputLoop_cancel (pre rest : List InputEvent)
    (hpre : ∀ e ∈ pre, e = InputEvent.line "") :
    chatInputLoop (pre ++ InputEvent.cancel :: rest) = none := by
  induction pre with
  | nil => rfl
  | cons e es ih =>
    have he := hpre e (by simp)
    subst he
    simp only [List.cons_append, chatInputLoop]
    rw [if_pos (show String.isEmpty "" = true from rfl)]
    exact ih (fun e2 he2 => hpre e2 (List.mem_cons_of_mem _ he2))

/-- Claim C6, corrected (the `ChatEnvironment` half): a cancellation of the
in-progress input wait — user interrupt or end of input, possibly after some
empty re-prompts — is caught inside
`ChatEnvironment.handle_agent_response` and yields `None`, ending the run as
"no further instruction" instead of crashing. The prototype
`InteractiveEnvironment` hook does not do this (see the counterexample). -/
theorem c6_chat_hook_catches_cancellation (should_terminate : Bool)
    (resp : LLMCompletionResponse) (pre rest : List InputEvent)
    (hpre : ∀ e ∈ pre, e = InputEvent.line "") :
    chatHandleAgentResponse should_terminate resp
      (pre ++ InputEvent.cancel :: rest) = none := by
  cases should_terminate
  · simp only [chatHandleAgentResponse, Bool.false_eq_true, if_false]
    cases hc : resp.content with
    | none => rfl
    | some r =>
      by_cases hre : r.isEmpty
      · simp [hre]
      · simp only [hre, Bool.false_eq_true, if_false]
        exact chatInputLoop_cancel pre rest hpre
  · simp [chatHandleAgentResponse]

/-- Witness for the corrected claim C6: after one empty re-prompt the user
cancels, and the chat hook returns no further instruction. -/
theorem c6_chat_hook_catches_cancellation_witness :
    chatHandleAgentResponse false
      (LLMCompletionResponse.make (assistantTextMessage "All done."))
      ([InputEvent.line ""] ++ InputEvent.cancel :: []) = none :=
  c6_chat_hook_catches_cancellation false
    (LLMCompletionResponse.make (assistantTextMessage "All done."))
    [InputEvent.line ""] [] (by intro e he; simpa using he)

/-- Counterexample to claim C6 as stated: for the prototype
`InteractiveEnvironment` (src/ai/agent.py), whose continuation hook also
solicits interactive input, a cancellation of the wait escapes the hook as
an exception instead of being treated as "no further instruction". -/
theorem c6_counterexample :
    interactiveHandleAgentResponse
      (LLMCompletionResponse.make (assistantTextMessage "All done."))
      [InputEvent.cancel] = Except.error "KeyboardInterrupt" :=
  rfl

/-- Characterization of the `required` accumulator of the parameter loop:
starting from any partial schema, the loop appends exactly the names of the
non-`self` parameters that lack a default, in declaration order. -/
theorem foldl_examineParam_required (params : List Param) (schema : ArgsSchema) :
    (params.foldl examineParam schema).required =
      schema.required ++
        (params.filter (fun p => !(p.name == "self") && !p.hasDefault)).map Param.name := by
  induction params generalizing schema with
  | nil => simp
  | cons p ps ih =>
    simp only [List.foldl_cons, List.filter_cons]
    by_cases hps : p.name = "self"
    · simp only [examineParam, hps, if_pos rfl, beq_self_eq_true, Bool.not_true,
        Bool.false_and, if_false, Bool.false_eq_true]
      exact ih schema
    · have hbeq : (p.name == "self") = false := beq_eq_false_iff_ne.mpr hps
      simp only [examineParam, hps, if_false, hbeq, Bool.not_false, Bool.true_and]
      by_cases hd : p.hasDefault
      · simp only [hd, if_pos rfl, Bool.not_true, if_false, Bool.false_eq_true]
        exact ih _
      · have hdf : p.hasDefault = false := by
          cases hdd : p.hasDefault
          · rfl
          · exact absurd hdd hd
        simp only [hdf, Bool.false_eq_true, if_false, Bool.not_false, if_true,
          List.map_cons]
        rw [ih _]
        simp

/-- Claim C8, confirmed: for a registered capability whose parameter names
are distinct (as Python signatures guarantee), the derived `required` list is
exactly the declaration-ordered names of the parameters without a default,
the implicit `self` receiver excluded; so a parameter is in `required` iff it
has no default value. -/
theorem c8_required_iff_no_default (params : List Param)
    (hnd : (params.map Param.name).Nodup) :
    (buildArgsSchema params).required =
      (params.filter (fun p => !(p.name == "self") && !p.hasDefault)).map Param.name ∧
    ∀ p ∈ params, p.name ≠ "self" →
      (p.name ∈ (buildArgsSchema params).required ↔ p.hasDefault = false) := by
  have heq : (buildArgsSchema params).required =
      (params.filter (fun p => !(p.name == "self") && !p.hasDefault)).map Param.name := by
    have h := foldl_examineParam_required params
      { type := "object", properties := [], required := [] }
    simpa [buildArgsSchema] using h
  refine ⟨heq, ?_⟩
  intro p hp hpself
  rw [heq]
  constructor
  · intro hmem
    obtain ⟨q, hqf, hqname⟩ := List.mem_map.mp hmem
    obtain ⟨hqp, hqcond⟩ := List.mem_filter.mp hqf
    have hqeq : q = p := List.inj_on_of_nodup_map hnd hqp hp hqname
    obtain ⟨h1, h2⟩ := Bool.and_eq_true_iff.mp hqcond
    rw [hqeq] at h2
    cases hdd : p.hasDefault
    · rfl
    · rw [hdd] at h2
      exact absurd h2 (by decide)
  · intro hdef
    refine List.mem_map_of_mem Param.name (List.mem_filter.mpr ⟨hp, ?_⟩)
    have hbeq : (p.name == "self") = false := beq_eq_false_iff_ne.mpr hpself
    simp [hbeq, hdef]

/-- The parameter list of the test suite's `sample_tool`: the receiver, a
required parameter, and a defaulted parameter. -/
def sampleParams : List Param :=
  [Param.mk "self" false none,
   Param.mk "required_param" false (some "str"),
   Param.mk "optional_param" true (some "int")]

/-- Witness for claim C8: on `sample_tool`'s signature the list equation and
the membership equivalence hold concretely. -/
theorem c8_required_iff_no_default_witness :
    (buildArgsSchema sampleParams).required =
      (sampleParams.filter (fun p => !(p.name == "self") && !p.hasDefault)).map
        Param.name ∧
    ∀ p ∈ sampleParams, p.name ≠ "self" →
      (p.name ∈ (buildArgsSchema sampleParams).required ↔ p.hasDefault = false) :=
  c8_required_iff_no_default sampleParams (by decide)

/-- Anything the member walk registers, starting from any accumulator, was
either already in the accumulator or is a tool-marked, non-private member. -/
theorem foldl_collectStep_mem (members : List Member)
    (acc : List (String × ToolInfo)) (name : String) (info : ToolInfo)
    (h : (name, info) ∈ members.foldl collectStep acc) :
    (name, info) ∈ acc ∨
      (pyStartsWithUnderscore name = false ∧ (name, some info) ∈ members) := by
  induction members generalizing acc with
  | nil => exact Or.inl h
  | cons m ms ih =>
    rcases ih (collectStep acc m) h with hacc | ⟨hpriv, hmem⟩
    · by_cases hm : pyStartsWithUnderscore m.1 = true
      · rw [collectStep, if_pos hm] at hacc
        exact Or.inl hacc
      · have hm2 : pyStartsWithUnderscore m.1 = false := by
          cases hmm : pyStartsWithUnderscore m.1
          · rfl
          · exact absurd hmm hm
        rw [collectStep, if_neg hm] at hacc
        cases hi : m.2 with
        | none =>
          rw [hi] at hacc
          exact Or.inl hacc
        | some info2 =>
          rw [hi] at hacc
          rcases List.mem_append.mp hacc with hacc2 | hnew
          · exact Or.inl hacc2
          · have hpair : (name, info) = (m.1, info2) := List.mem_singleton.mp hnew
            have hname : name = m.1 := congrArg Prod.fst hpair
            have hinfo : info = info2 := congrArg Prod.snd hpair
            refine Or.inr ⟨by rw [hname]; exact hm2, ?_⟩
            rw [hname, hinfo, ← hi]
            exact List.mem_cons_self _ _
    · exact Or.inr ⟨hpriv, List.mem_cons_of_mem _ hmem⟩

/-- Claim C9, confirmed: every entry of the tool registry built by
`_collect_tools` has a name that does not start with `"_"` and came from a
member that carried the tool marking; a private member is never registered,
marked or not. -/
theorem c9_private_members_never_registered (members : List Member)
    (name : String) (info : ToolInfo)
    (h : (name, info) ∈ collectTools members) :
    pyStartsWithUnderscore name = false ∧ (name, some info) ∈ members := by
  rcases foldl_collectStep_mem members [] name info h with hacc | hok
  · cases hacc
  · exact hok

/-- A public registered tool for concrete registry scenarios. -/
def demoToolInfo : ToolInfo :=
  { impl := fun _ => Except.ok "r", tool_name := "demo_tool",
    description := "A demo tool.",
    parameters := { type := "object", properties := [], required := [] } }

/-- A tool-marked member whose attribute name is private. -/
def privateToolInfo : ToolInfo :=
  { impl := fun _ => Except.ok "p", tool_name := "_hidden",
    description := "A marked private member.",
    parameters := { type := "object", properties := [], required := [] } }

/-- A member list with a marked private member, a marked public member, and
an unmarked member. -/
def demoMembers : List Member :=
  [("_hidden", some privateToolInfo), ("demo_tool", some demoToolInfo),
   ("plain_attr", none)]

/-- Witness for claim C9: the registered `demo_tool` entry is non-private
and tool-marked (while the marked `_hidden` and the unmarked `plain_attr`
are absent from the registry, which holds exactly the one entry). -/
theorem c9_private_members_never_registered_witness :
    pyStartsWithUnderscore "demo_tool" = false ∧
    ("demo_tool", some demoToolInfo) ∈ demoMembers :=
  c9_private_members_never_registered demoMembers "demo_tool" demoToolInfo
    (by exact List.mem_singleton_self _)

/-- Claim C10, confirmed: `get_tools` wraps every stored tool as
`{type: "function", function: {name, description, parameters}}` (the shape
the spec prescribes, `specToolSchema`); calling the method leaves the
environment unchanged and a second call returns the same list; every element
has type `"function"`; and every stored tool is reproduced in the list with
its stored name, description, and parameter set. -/
theorem c10_get_tools_shape (env : Environment) :
    env.get_tools = env.tools.map (fun t => specToolSchema t.2) ∧
    env.get_tools_call.2 = env ∧
    env.get_tools_call.2.get_tools_call.1 = env.get_tools_call.1 ∧
    (∀ s ∈ env.get_tools, s.type = "function") ∧
    (∀ t ∈ env.tools, specToolSchema t.2 ∈ env.get_tools) := by
  refine ⟨rfl, rfl, rfl, ?_, ?_⟩
  · intro s hs
    obtain ⟨t, ht, hts⟩ := List.mem_map.mp hs
    rw [← hts]
  · intro t ht
    exact List.mem_map_of_mem _ ht

/-- An environment built by construction-time collection over
`demoMembers`. -/
def demoEnvironment : Environment :=
  Environment.make demoMembers (fun _ => none)

/-- Witness for claim C10: on the concrete environment, the schema list has
the prescribed shape and reproduces the stored `demo_tool` spec. -/
theorem c10_get_tools_shape_witness :
    demoEnvironment.get_tools
      = demoEnvironment.tools.map (fun t => specToolSchema t.2) ∧
    specToolSchema demoToolInfo ∈ demoEnvironment.get_tools :=
  ⟨(c10_get_tools_shape demoEnvironment).1,
   (c10_get_tools_shape demoEnvironment).2.2.2.2 ("demo_tool", demoToolInfo)
     (by exact List.mem_singleton_self _)⟩
